import Mathlib

/-!
Verification of the matroschka-prober probe engine against its design
specification.  The Go sources under pkg/prober (transit_probes.go,
receiver.go) and pkg/config (config.go) are shallowly embedded below:
Go maps become key-unique association lists, uint64/int64 arithmetic
becomes Nat/Int arithmetic with explicit `% 2^64` wrapping, and each
method that mutates its receiver becomes an explicit state-passing
function returning the result together with the new state.
-/

namespace Matroschka

/-! ## Transit registry (pkg/prober/transit_probes.go)

`transitProbes` holds a Go map from uint64 sequence numbers to int64 unix
nanosecond send timestamps, guarded by a `sync.RWMutex`.  Each method holds
the lock for its whole body, so each method is one atomic step; the map is
modelled as an association list whose keys are unique (a Go map can never
hold two entries for one key). -/

abbrev Registry := List (Nat × Int)

/-- Lookup in the association list modelling the Go map (`t.m[s]`). -/
def rLookup : Registry → Nat → Option Int
  | [], _ => none
  | (k, v) :: rest, s => if k = s then some v else rLookup rest s

/-- The Go-map invariant: no key occurs twice. -/
abbrev keysNodup (m : Registry) : Prop := (m.map Prod.fst).Nodup

/-- `func (t *transitProbes) add(p *probe)`: `t.m[p.SequenceNumber] = p.TimeStamp`
under the write lock — insert or overwrite. -/
def transitProbes.add (m : Registry) (seq : Nat) (ts : Int) : Registry :=
  (seq, ts) :: m.filter (fun e => e.1 != seq)

/-- `func (t *transitProbes) remove(s uint64) error`: under the write lock,
if `s` is absent return the not-found error and leave the map alone;
otherwise delete the entry and return nil.  The Go method returns only an
`error` — its result carries no timestamp. -/
def transitProbes.remove (m : Registry) (s : Nat) : Except String Unit × Registry :=
  match rLookup m s with
  | none => (Except.error ("Sequence number " ++ toString s ++ " not found"), m)
  | some _ => (Except.ok (), m.filter (fun e => e.1 != s))

/-- `func (t *transitProbes) getLt(lt int64) map[uint64]int64`: under the
read lock, copy every entry whose timestamp is `< lt` into a fresh map and
return it.  The method never writes `t.m`, so the post-state (second
component) equals the pre-state. -/
def transitProbes.getLt (m : Registry) (lt : Int) : Registry × Registry :=
  (m.filter (fun e => decide (e.2 < lt)), m)

/-! ### Association-list lemmas -/

theorem rLookup_eq_none_of_not_mem_keys (m : Registry) (s : Nat)
    (h : s ∉ m.map Prod.fst) : rLookup m s = none := by
  induction m with
  | nil => rfl
  | cons e rest ih =>
    obtain ⟨k, v⟩ := e
    simp only [List.map_cons, List.mem_cons, not_or] at h
    have hks : ¬ k = s := fun hk => h.1 hk.symm
    simp [rLookup, hks, ih h.2]

theorem rLookup_filter_self (m : Registry) (s : Nat) :
    rLookup (m.filter (fun e => e.1 != s)) s = none := by
  apply rLookup_eq_none_of_not_mem_keys
  intro hmem
  rcases List.mem_map.mp hmem with ⟨e, he, hk⟩
  rcases List.mem_filter.mp he with ⟨_, hne⟩
  simp [hk] at hne

theorem rLookup_filter_other (m : Registry) (s s' : Nat) (h : s' ≠ s) :
    rLookup (m.filter (fun e => e.1 != s)) s' = rLookup m s' := by
  induction m with
  | nil => rfl
  | cons e rest ih =>
    obtain ⟨k, v⟩ := e
    by_cases hk : k = s
    · subst hk
      have hks : ¬ k = s' := fun hh => h hh.symm
      simp [List.filter_cons, rLookup, hks, ih]
    · simp [List.filter_cons, rLookup, hk, ih]

theorem rLookup_filter_of_lookup (m : Registry) (f : Nat × Int → Bool) (s : Nat) (ts : Int)
    (hl : rLookup m s = some ts) (hf : f (s, ts) = true) :
    rLookup (m.filter f) s = some ts := by
  induction m with
  | nil => simp [rLookup] at hl
  | cons e rest ih =>
    obtain ⟨k, v⟩ := e
    by_cases hk : k = s
    · subst hk
      have hv : v = ts := by simpa [rLookup] using hl
      subst hv
      simp [List.filter_cons, hf, rLookup]
    · have hl' : rLookup rest s = some ts := by simpa [rLookup, hk] using hl
      by_cases hfk : f (k, v) = true
      · simpa [List.filter_cons, hfk, rLookup, hk] using ih hl'
      · simpa [List.filter_cons, hfk] using ih hl'

theorem rLookup_filter_iff (m : Registry) (f : Nat × Int → Bool) (s : Nat) (ts : Int)
    (hm : keysNodup m) :
    rLookup (m.filter f) s = some ts ↔ rLookup m s = some ts ∧ f (s, ts) = true := by
  induction m with
  | nil => simp [rLookup]
  | cons e rest ih =>
    obtain ⟨k, v⟩ := e
    have hnd : keysNodup rest := by
      have := (List.nodup_cons.mp hm).2
      simpa [keysNodup] using this
    have hknot : k ∉ rest.map Prod.fst := by
      have := (List.nodup_cons.mp hm).1
      simpa [keysNodup] using this
    by_cases hk : k = s
    · subst hk
      by_cases hfk : f (k, v) = true
      · simp only [List.filter_cons, hfk, if_true]
        constructor
        · intro hsome
          have hv : v = ts := by simpa [rLookup] using hsome
          subst hv
          exact ⟨by simp [rLookup], hfk⟩
        · intro hsome
          have hv : v = ts := by simpa [rLookup] using hsome.1
          subst hv
          simp [rLookup]
      · have hrest : rLookup (rest.filter f) k = none := by
          apply rLookup_eq_none_of_not_mem_keys
          intro hmem
          rcases List.mem_map.mp hmem with ⟨e, he, hke⟩
          exact hknot (List.mem_map.mpr ⟨e, (List.mem_filter.mp he).1, hke⟩)
        constructor
        · intro hsome
          rw [List.filter_cons, if_neg (by simpa using hfk), hrest] at hsome
          exact absurd hsome (by simp)
        · intro hsome
          have hv : v = ts := by simpa [rLookup] using hsome.1
          subst hv
          exact absurd hsome.2 hfk
    · by_cases hfk : f (k, v) = true
      · rw [List.filter_cons, if_pos hfk]
        simpa [rLookup, hk] using ih hnd
      · rw [List.filter_cons, if_neg (by simpa using hfk)]
        simpa [rLookup, hk] using ih hnd

/-! ## Machine-integer helpers

Go's uint64/int64 arithmetic is modelled on Nat/Int with explicit wrapping:
a uint64 value is a Nat reduced `% 2^64`, an int64 value is an Int in
`[-2^63, 2^63)`, and the Go conversions between them reinterpret the bit
pattern. -/

/-- Go conversion `int64(n)` of a uint64 value `n < 2^64`. -/
def toInt64 (n : Nat) : Int :=
  if n < 2 ^ 63 then (n : Int) else (n : Int) - 2 ^ 64

/-- Go conversion `uint64(x)` of an int64 value. -/
def toUInt64 (x : Int) : Nat := (x % (2 ^ 64 : Int)).toNat

/-- Wrapping of a mathematical integer into int64 (two's complement). -/
def wrap64 (x : Int) : Int := toInt64 (toUInt64 x)

/-! ## Receiver (pkg/prober/receiver.go) -/

/-- The probe carried on the wire: `SequenceNumber uint64`, `TimeStamp int64`
(unix nanoseconds at send time). -/
structure probe where
  SequenceNumber : Nat
  TimeStamp : Int
deriving DecidableEq, Repr

/-- The configuration fields the receiver reads: `TimeoutMS uint64` and
`MeasurementLengthMS uint64`. -/
structure Cfg where
  TimeoutMS : Nat
  MeasurementLengthMS : Nat
deriving DecidableEq, Repr

/-- The prober state the receiver loop touches: the transit registry, the
uint64 counters `probesReceived` and `latePackets`, and the trace of
`measurements.AddRecv(sendTS, rtt, measurementLengthMS)` calls made on the
aggregator (most recent first). -/
structure ProberState where
  transitProbes : Registry
  probesReceived : Nat
  latePackets : Nat
  recvs : List (Int × Nat × Nat)
deriving DecidableEq, Repr

/-- `func msToNS(s uint64) uint64 { return s * 1000000 }` — uint64
multiplication wraps. -/
def msToNS (s : Nat) : Nat := s * 1000000 % 2 ^ 64

/-- `func (p *Prober) timedOut(s int64) bool { return s > int64(msToNS(p.cfg.TimeoutMS)) }` -/
def timedOut (cfg : Cfg) (s : Int) : Bool := s > toInt64 (msToNS cfg.TimeoutMS)

/-- Big-endian value of a byte list (`binary.BigEndian.Uint64`). -/
def beNat (bs : List Nat) : Nat := bs.foldl (fun acc b => acc * 256 + b) 0

/-- The eight big-endian bytes of a uint64 value. -/
def bytesBE8 (n : Nat) : List Nat :=
  [n / 2 ^ 56 % 256, n / 2 ^ 48 % 256, n / 2 ^ 40 % 256, n / 2 ^ 32 % 256,
   n / 2 ^ 24 % 256, n / 2 ^ 16 % 256, n / 2 ^ 8 % 256, n % 256]

/-- Modelled from the spec: the wire codec (`marshal` in the prober package,
probe.go) is not among the provided source files.  Per spec §4.1/§6 the
packet is the 8-byte big-endian sequence number, then the 8-byte big-endian
two's-complement nanosecond timestamp, then zero padding up to the
configured payload size. -/
def marshal (p : probe) (payloadSize : Nat) : List Nat :=
  bytesBE8 p.SequenceNumber ++ bytesBE8 (toUInt64 p.TimeStamp) ++
    List.replicate (payloadSize - 16) 0

/-- Modelled from the spec: the wire codec (`unmarshal` in the prober
package, probe.go) is not among the provided source files.  Per spec §4.1/§6
an input shorter than the 16-byte header fails with the malformed-packet
error; otherwise bytes [0:8) decode big-endian to the sequence number and
bytes [8:16) big-endian two's-complement to the timestamp. -/
def unmarshal (b : List Nat) : Except String probe :=
  if b.length < 16 then Except.error "malformed packet"
  else Except.ok
    { SequenceNumber := beNat (b.take 8)
      TimeStamp := toInt64 (beNat ((b.drop 8).take 8)) }

/-- The three fates of a decoded reply in the receiver loop. -/
inductive RecvOutcome
  | ignored
  | late
  | received
deriving DecidableEq, Repr

/-- receiver.go lines 36-49: after a successful unmarshal, try
`transitProbes.remove(pkt.SequenceNumber)`; on error ignore the reply;
otherwise compute `rtt := now - pkt.TimeStamp`, and either count it late
(`atomic.AddUint64(&p.latePackets, 1)`, sample dropped) or call
`p.measurements.AddRecv(pkt.TimeStamp, uint64(rtt), p.cfg.MeasurementLengthMS)`. -/
def handlePkt (cfg : Cfg) (st : ProberState) (now : Int) (pkt : probe) :
    RecvOutcome × ProberState :=
  match transitProbes.remove st.transitProbes pkt.SequenceNumber with
  | (Except.error _, t) => (RecvOutcome.ignored, { st with transitProbes := t })
  | (Except.ok _, t) =>
    let rtt := wrap64 (now - pkt.TimeStamp)
    if timedOut cfg rtt then
      (RecvOutcome.late,
        { st with transitProbes := t, latePackets := (st.latePackets + 1) % 2 ^ 64 })
    else
      (RecvOutcome.received,
        { st with transitProbes := t,
                  recvs := (pkt.TimeStamp, toUInt64 rtt, cfg.MeasurementLengthMS) :: st.recvs })

/-- What one receiver-loop iteration observes: the stop channel is ready at
the top-of-loop `select`, or `udpConn.Read` returns an error, or a datagram
with the given buffer contents arrives. -/
inductive ReadEvent
  | stopSignal
  | readError
  | datagram (raw : List Nat)
deriving DecidableEq, Repr

/-- Whether the iteration `return`s out of the loop or falls through /
`continue`s to the next iteration. -/
inductive LoopAction
  | exitLoop
  | nextIter
deriving DecidableEq, Repr

/-- One iteration of `func (p *Prober) receiver()` (receiver.go lines
14-50): stop signal → return; read error → return; otherwise increment
`probesReceived`, unmarshal (error → return), then process the packet and
continue. -/
def receiverStep (cfg : Cfg) (st : ProberState) (now : Int) (ev : ReadEvent) :
    LoopAction × ProberState :=
  match ev with
  | ReadEvent.stopSignal => (LoopAction.exitLoop, st)
  | ReadEvent.readError => (LoopAction.exitLoop, st)
  | ReadEvent.datagram raw =>
    let st1 := { st with probesReceived := (st.probesReceived + 1) % 2 ^ 64 }
    match unmarshal raw with
    | Except.error _ => (LoopAction.exitLoop, st1)
    | Except.ok pkt => (LoopAction.nextIter, (handlePkt cfg st1 now pkt).2)

/-! ## Receiver/Reaper race (spec §4.2/§8 vs transit_probes.go)

Each registry method holds the lock for its whole body, so a concurrent
execution of a Receiver `remove` and a Reaper sweep (`getLt`) is one of the
two sequential orders of the two atomic steps.  The Receiver claims the
sequence number when its `remove` returns nil; the Reaper claims it when the
sequence number is in the map returned by `getLt` (spec §4.5: every returned
entry is counted lost). -/

def isOk : Except String Unit → Bool
  | Except.ok _ => true
  | Except.error _ => false

structure RaceResult where
  receiverClaims : Bool
  reaperClaims : Bool
deriving DecidableEq, Repr

/-- Run the two atomic registry operations in the given order
(`sweepFirst = true`: `getLt` then `remove`; otherwise `remove` then
`getLt`) and record which caller claims sequence number `s`. -/
def runRace (sweepFirst : Bool) (m : Registry) (s : Nat) (lt : Int) : RaceResult :=
  if sweepFirst then
    let sw := transitProbes.getLt m lt
    let rm := transitProbes.remove sw.2 s
    { receiverClaims := isOk rm.1, reaperClaims := (rLookup sw.1 s).isSome }
  else
    let rm := transitProbes.remove m s
    let sw := transitProbes.getLt rm.2 lt
    { receiverClaims := isOk rm.1, reaperClaims := (rLookup sw.1 s).isSome }

/-! ## Configuration (pkg/config/config.go)

The claims touch `Validate` (which calls `validatePaths` and
`validateRouters`), `GenerateAddrs`, `getCIDRBase` and `maskAddrCount`.
`net.ParseCIDR` is Go standard-library code; it is modelled here for IPv4
inputs: `a.b.c.d/n` with decimal octets 0-255 without leading zeros and a
prefix length 0-32, returning the raw 32-bit address and the prefix
length. -/

/-- Split a character list at every occurrence of the separator. -/
def splitChar (c : Char) : List Char → List (List Char)
  | [] => [[]]
  | x :: xs =>
    let r := splitChar c xs
    if x = c then [] :: r
    else
      match r with
      | [] => [[x]]
      | h :: t => (x :: h) :: t

/-- Decimal value of a digit string (callers check digits first). -/
def decVal (cs : List Char) : Nat := cs.foldl (fun a c => a * 10 + (c.toNat - 48)) 0

/-- One dotted-decimal octet: 1-3 digits, no leading zero, value ≤ 255. -/
def parseOctet (cs : List Char) : Option Nat :=
  if cs.length = 0 ∨ cs.length > 3 then none
  else if ¬ cs.all Char.isDigit then none
  else if cs.length > 1 ∧ cs.headI = '0' then none
  else if decVal cs ≤ 255 then some (decVal cs) else none

/-- Dotted-decimal IPv4 address as its 32-bit big-endian value. -/
def parseIPv4 (cs : List Char) : Option Nat :=
  match (splitChar '.' cs).map parseOctet with
  | [some a, some b, some c, some d] =>
      some (a * 2 ^ 24 + b * 2 ^ 16 + c * 2 ^ 8 + d)
  | _ => none

/-- Prefix length: 1-2 digits, no leading zero, value ≤ 32. -/
def parsePrefixLen (cs : List Char) : Option Nat :=
  if cs.length = 0 ∨ cs.length > 2 then none
  else if ¬ cs.all Char.isDigit then none
  else if cs.length > 1 ∧ cs.headI = '0' then none
  else if decVal cs ≤ 32 then some (decVal cs) else none

/-- `net.ParseCIDR` for IPv4: address part before the slash, decimal prefix
length after it.  Returns `(raw address, prefix length)` on success, `none`
where Go returns a parse error. -/
def parseCIDR (s : String) : Option (Nat × Nat) :=
  match splitChar '/' s.toList with
  | [addr, mask] =>
    match parseIPv4 addr, parsePrefixLen mask with
    | some ip, some ones => some (ip, ones)
    | _, _ => none
  | _ => none

/-- `Router` (config.go): name plus destination and source CIDR ranges. -/
structure Router where
  Name : String
  DstRange : String
  SrcRange : String
deriving DecidableEq, Repr

/-- `Path` (config.go): name plus the list of hop (router) names. -/
structure GoPath where
  Name : String
  Hops : List String
deriving DecidableEq, Repr

/-- The `Config` fields `Validate` reads. -/
structure Config where
  Paths : List GoPath
  Routers : List Router
deriving DecidableEq, Repr

/-- `func (c *Config) routerExists(needle string) bool` -/
def routerExists (c : Config) (needle : String) : Bool :=
  c.Routers.any (fun r => r.Name == needle)

/-- `func (c *Config) validatePaths() error`: the first hop name that names
no configured router fails the whole validation. -/
def validatePaths (c : Config) : Except String Unit :=
  match c.Paths.findSome? (fun p =>
    (p.Hops.find? (fun h => ! routerExists c h)).map (fun h => (h, p.Name))) with
  | some (h, pname) =>
      Except.error ("Router " ++ h ++ " of path " ++ pname ++ " does not exist")
  | none => Except.ok ()

/-- `func (c *Config) validateRouters() error`: only each router's
`DstRange` is passed to `net.ParseCIDR`; `SrcRange` is never parsed here. -/
def validateRouters (c : Config) : Except String Unit :=
  match c.Routers.find? (fun r => (parseCIDR r.DstRange).isNone) with
  | some r => Except.error ("Unable to parse dst IP range for router " ++ r.Name)
  | none => Except.ok ()

/-- `func (c *Config) Validate() error` -/
def Validate (c : Config) : Except String Unit :=
  match validatePaths c with
  | Except.error e => Except.error ("Path validation failed: " ++ e)
  | Except.ok _ =>
    match validateRouters c with
    | Except.error e => Except.error ("Router validation failed: " ++ e)
    | Except.ok _ => Except.ok ()

/-- `getCIDRBase` ∘ the masking done by `net.ParseCIDR`: the returned
network address is the raw address with its low `32 - ones` bits cleared,
read big-endian into a uint32. -/
def getCIDRBase (ip ones : Nat) : Nat :=
  ip % 2 ^ 32 / 2 ^ (32 - ones) * 2 ^ (32 - ones)

/-- `func maskAddrCount(n net.IPNet) uint32`: for an IPv4 mask
`bits = 32`; if `ones == bits` the count is 1, otherwise a uint32 `x`
starts at 1 and is doubled once per host bit — wrapping at 2^32. -/
def maskAddrCount (ones : Nat) : Nat :=
  if ones = 32 then 1
  else (List.range (32 - ones)).foldl (fun x _ => x * 2 % 2 ^ 32) 1

/-- `func GenerateAddrs(addrRange string) []net.IP`: parse (panic on
failure, modelled as `none`), take the network base and the address count
`c`, and build the list `ret[i] = base + i % c` in uint32 arithmetic. -/
def GenerateAddrs (addrRange : String) : Option (List Nat) :=
  match parseCIDR addrRange with
  | none => none
  | some (ip, ones) =>
    let baseAddr := getCIDRBase ip ones
    let c := maskAddrCount ones
    some ((List.range c).map (fun i => (baseAddr + i % c) % 2 ^ 32))

/-! ## Claims about the transit registry -/

/-- C1, counterexample: the claim says the sweep (`getLt`) removes every
returned entry in the same critical section as the scan, so that afterwards
no returned sequence number is still in the registry.  On the registry
`[(1, 0)]` with cutoff 10, sequence number 1 is returned by the sweep AND is
still present in the registry after the call: `getLt` only reads under the
read lock and removes nothing. -/
theorem C1_getLt_removes_counterexample :
    rLookup (transitProbes.getLt [((1 : Nat), (0 : Int))] 10).1 1 = some 0 ∧
    rLookup (transitProbes.getLt [((1 : Nat), (0 : Int))] 10).2 1 = some 0 :=
  ⟨rfl, rfl⟩

/-- C1, amended: `getLt(cutoff)` returns exactly the entries whose
`sendTimestamp` is strictly less than the cutoff, but removes none of them:
the registry after the call is unchanged (removal is left to the caller,
outside the scan's critical section). -/
theorem C1_getLt_exact_scan (m : Registry) (lt : Int) (hm : keysNodup m) :
    (∀ s ts, rLookup (transitProbes.getLt m lt).1 s = some ts ↔
      rLookup m s = some ts ∧ ts < lt) ∧
    (transitProbes.getLt m lt).2 = m := by
  refine ⟨fun s ts => ?_, rfl⟩
  have h := rLookup_filter_iff m (fun e => decide (e.2 < lt)) s ts hm
  simpa [transitProbes.getLt] using h

/-- C1, witness: the amended scan law evaluated on the registry
`[(1, 0), (2, 5)]` with cutoff 3. -/
theorem C1_getLt_exact_scan_witness :
    (rLookup (transitProbes.getLt [((1 : Nat), (0 : Int)), (2, 5)] 3).1 1 = some 0 ↔
      rLookup [((1 : Nat), (0 : Int)), (2, 5)] 1 = some 0 ∧ (0 : Int) < 3) ∧
    (transitProbes.getLt [((1 : Nat), (0 : Int)), (2, 5)] 3).2 = [(1, 0), (2, 5)] :=
  ⟨(C1_getLt_exact_scan [(1, 0), (2, 5)] 3 (by decide)).1 1 0,
   (C1_getLt_exact_scan [(1, 0), (2, 5)] 3 (by decide)).2⟩

/-- C2, counterexample: the claim says that for every interleaving of a
`remove` and a covering sweep, exactly one of the two callers claims the
entry — never two.  In the sweep-first interleaving on registry `[(5, 0)]`
with cutoff 10, the sweep returns sequence number 5 (the Reaper will count
it lost) and the subsequent `remove` also succeeds (the Receiver records an
outcome too): both callers claim the entry, because the sweep does not
remove what it returns. -/
theorem C2_race_counterexample :
    runRace true [((5 : Nat), (0 : Int))] 5 10 =
      { receiverClaims := true, reaperClaims := true } := rfl

/-- C2, amended: each registry operation is individually atomic under the
lock, and in the remove-first interleaving exactly one caller (the
Receiver) claims the entry; but in the sweep-first interleaving both
callers claim it, because `getLt` returns entries without removing them —
exactly-once claiming is not guaranteed by these two operations alone. -/
theorem C2_race_amended (m : Registry) (s : Nat) (ts : Int) (lt : Int)
    (hfound : rLookup m s = some ts) (hlt : ts < lt) :
    runRace false m s lt = { receiverClaims := true, reaperClaims := false } ∧
    runRace true m s lt = { receiverClaims := true, reaperClaims := true } := by
  constructor
  · have hnone : rLookup (m.filter (fun a => decide (a.2 < lt) && a.1 != s)) s = none := by
      apply rLookup_eq_none_of_not_mem_keys
      intro hmem
      rcases List.mem_map.mp hmem with ⟨e, he, hke⟩
      have he2 := (List.mem_filter.mp he).2
      simp [hke] at he2
    simp [runRace, transitProbes.remove, hfound, transitProbes.getLt, isOk, hnone]
  · have hin : rLookup (m.filter (fun e => decide (e.2 < lt))) s = some ts :=
      rLookup_filter_of_lookup m _ s ts hfound (by simpa using hlt)
    simp [runRace, transitProbes.remove, hfound, transitProbes.getLt, isOk, hin]

/-- C2, witness: the amended race law evaluated on the registry `[(5, 0)]`
with cutoff 10. -/
theorem C2_race_amended_witness :
    runRace false [((5 : Nat), (0 : Int))] 5 10 =
      { receiverClaims := true, reaperClaims := false } ∧
    runRace true [((5 : Nat), (0 : Int))] 5 10 =
      { receiverClaims := true, reaperClaims := true } :=
  C2_race_amended [(5, 0)] 5 0 10 rfl (by decide)

/-- C3, counterexample: the claim says `remove` returns the removed entry's
`sendTimestamp` on success.  The Go method returns only `error` — its
success value (`nil`) carries no information, so no function of the result
can recover the timestamp: the registries `[(0, 5)]` and `[(0, 7)]` give
identical results for `remove(0)` while their timestamps differ. -/
theorem C3_remove_no_timestamp_counterexample :
    ¬ ∃ f : Unit → Int, ∀ (m : Registry) (s : Nat) (ts : Int),
      rLookup m s = some ts → ∀ u : Unit,
        (transitProbes.remove m s).1 = Except.ok u → f u = ts := by
  rintro ⟨f, hf⟩
  have h5 : f () = 5 := hf [(0, 5)] 0 5 rfl () rfl
  have h7 : f () = 7 := hf [(0, 7)] 0 7 rfl () rfl
  rw [h5] at h7
  exact absurd h7 (by norm_num)

/-- C3, amended: `remove(s)` atomically tests and deletes in one critical
section: if `s` is present it deletes that entry (leaving every other
sequence number's entry unchanged) and returns nil — not the timestamp; if
`s` is absent it returns the not-found error value (never a fatal
exception) and leaves the registry unchanged. -/
theorem C3_remove_amended (m : Registry) (s : Nat) :
    (∀ ts, rLookup m s = some ts →
      (transitProbes.remove m s).1 = Except.ok () ∧
      rLookup (transitProbes.remove m s).2 s = none ∧
      ∀ s', s' ≠ s → rLookup (transitProbes.remove m s).2 s' = rLookup m s') ∧
    (rLookup m s = none →
      (transitProbes.remove m s).1 =
        Except.error ("Sequence number " ++ toString s ++ " not found") ∧
      (transitProbes.remove m s).2 = m) := by
  constructor
  · intro ts hts
    refine ⟨?_, ?_, ?_⟩
    · simp [transitProbes.remove, hts]
    · simp [transitProbes.remove, hts, rLookup_filter_self]
    · intro s' hs'
      simp [transitProbes.remove, hts, rLookup_filter_other m s s' hs']
  · intro hnone
    constructor <;> simp [transitProbes.remove, hnone]

/-- C3, witness: the amended removal law evaluated on the registry
`[(3, 9)]`, once for the present sequence number 3 and once for the absent
sequence number 4. -/
theorem C3_remove_amended_witness :
    ((transitProbes.remove [((3 : Nat), (9 : Int))] 3).1 = Except.ok () ∧
     rLookup (transitProbes.remove [((3 : Nat), (9 : Int))] 3).2 3 = none ∧
     rLookup (transitProbes.remove [((3 : Nat), (9 : Int))] 3).2 4 =
       rLookup [((3 : Nat), (9 : Int))] 4) ∧
    ((transitProbes.remove [((3 : Nat), (9 : Int))] 4).1 =
       Except.error ("Sequence number " ++ toString (4 : Nat) ++ " not found") ∧
     (transitProbes.remove [((3 : Nat), (9 : Int))] 4).2 = [(3, 9)]) :=
  ⟨⟨((C3_remove_amended [(3, 9)] 3).1 9 rfl).1,
    ((C3_remove_amended [(3, 9)] 3).1 9 rfl).2.1,
    ((C3_remove_amended [(3, 9)] 3).1 9 rfl).2.2 4 (by decide)⟩,
   (C3_remove_amended [(3, 9)] 4).2 rfl⟩

/-- C7: `add(p)` inserts or overwrites the single entry for
`p.SequenceNumber`, leaves the entry of every other sequence number
unchanged, and makes the probe visible to the Reaper — a subsequent sweep
returns the new entry exactly when its timestamp is below the cutoff. -/
theorem C7_add_insert_overwrite (m : Registry) (seq : Nat) (ts : Int) (cutoff : Int) :
    rLookup (transitProbes.add m seq ts) seq = some ts ∧
    (∀ s', s' ≠ seq → rLookup (transitProbes.add m seq ts) s' = rLookup m s') ∧
    rLookup (transitProbes.getLt (transitProbes.add m seq ts) cutoff).1 seq =
      (if ts < cutoff then some ts else none) := by
  refine ⟨?_, ?_, ?_⟩
  · simp [transitProbes.add, rLookup]
  · intro s' hs'
    have h2 : ¬ seq = s' := fun h => hs' h.symm
    simp [transitProbes.add, rLookup, h2, rLookup_filter_other m seq s' hs']
  · by_cases hlt : ts < cutoff
    · simp [transitProbes.add, transitProbes.getLt, List.filter_cons, hlt, rLookup]
    · have hnone : rLookup (m.filter (fun a => decide (a.2 < cutoff) && a.1 != seq)) seq
          = none := by
        apply rLookup_eq_none_of_not_mem_keys
        intro hmem
        rcases List.mem_map.mp hmem with ⟨e, he, hke⟩
        have he2 := (List.mem_filter.mp he).2
        simp [hke] at he2
      simp [transitProbes.add, transitProbes.getLt, List.filter_cons, hlt, hnone]

/-- C7, witness: the add law evaluated on the registry `[(2, 7)]`, adding
sequence number 1 with timestamp 4 and sweeping with cutoff 5. -/
theorem C7_add_insert_overwrite_witness :
    rLookup (transitProbes.add [((2 : Nat), (7 : Int))] 1 4) 1 = some 4 ∧
    rLookup (transitProbes.add [((2 : Nat), (7 : Int))] 1 4) 2 =
      rLookup [((2 : Nat), (7 : Int))] 2 ∧
    rLookup (transitProbes.getLt (transitProbes.add [((2 : Nat), (7 : Int))] 1 4) 5).1 1 =
      (if (4 : Int) < 5 then some 4 else none) :=
  ⟨(C7_add_insert_overwrite [(2, 7)] 1 4 5).1,
   (C7_add_insert_overwrite [(2, 7)] 1 4 5).2.1 2 (by decide),
   (C7_add_insert_overwrite [(2, 7)] 1 4 5).2.2⟩

/-! ## Claims about the receiver -/

theorem wrap64_eq_of_range (x : Int) (h1 : -(2 ^ 63) ≤ x) (h2 : x < 2 ^ 63) :
    wrap64 x = x := by
  unfold wrap64 toUInt64 toInt64
  split <;> omega

theorem toInt64_msToNS (t : Nat) (hT : t * 1000000 < 2 ^ 63) :
    toInt64 (msToNS t) = (t : Int) * 1000000 := by
  unfold msToNS toInt64
  have hm : t * 1000000 % 2 ^ 64 = t * 1000000 := Nat.mod_eq_of_lt (by omega)
  rw [hm, if_pos hT]
  push_cast
  ring

/-- C4: for a decoded reply whose sequence number is present in the transit
registry, the receiver computes `rtt = now - sendTimestamp` and classifies
it late exactly when `rtt > TimeoutMS * 10^6` (strict): late increments the
late counter and drops the sample; otherwise `(sendTimestamp, rtt)` is fed
to the aggregator with the window length via `AddRecv`.  A reply whose
sequence number is absent is ignored — each decoded reply gets exactly one
of the three outcomes.  (Hypotheses: the timeout in nanoseconds and the rtt
fit in int64, so the Go arithmetic does not wrap.) -/
theorem C4_receiver_classification (cfg : Cfg) (st : ProberState) (now : Int) (pkt : probe)
    (hT : cfg.TimeoutMS * 1000000 < 2 ^ 63)
    (hlo : -(2 ^ 63) ≤ now - pkt.TimeStamp) (hhi : now - pkt.TimeStamp < 2 ^ 63) :
    (∀ ts, rLookup st.transitProbes pkt.SequenceNumber = some ts →
      ((now - pkt.TimeStamp > (cfg.TimeoutMS : Int) * 1000000 →
        handlePkt cfg st now pkt =
          (RecvOutcome.late,
            { st with
                transitProbes :=
                  st.transitProbes.filter (fun e => e.1 != pkt.SequenceNumber),
                latePackets := (st.latePackets + 1) % 2 ^ 64 })) ∧
       (now - pkt.TimeStamp ≤ (cfg.TimeoutMS : Int) * 1000000 →
        handlePkt cfg st now pkt =
          (RecvOutcome.received,
            { st with
                transitProbes :=
                  st.transitProbes.filter (fun e => e.1 != pkt.SequenceNumber),
                recvs := (pkt.TimeStamp, toUInt64 (now - pkt.TimeStamp),
                  cfg.MeasurementLengthMS) :: st.recvs })))) ∧
    (rLookup st.transitProbes pkt.SequenceNumber = none →
      (handlePkt cfg st now pkt).1 = RecvOutcome.ignored) := by
  have hw : wrap64 (now - pkt.TimeStamp) = now - pkt.TimeStamp :=
    wrap64_eq_of_range _ hlo hhi
  have ht : toInt64 (msToNS cfg.TimeoutMS) = (cfg.TimeoutMS : Int) * 1000000 :=
    toInt64_msToNS _ hT
  constructor
  · intro ts hts
    constructor
    · intro hgt
      have htrue : timedOut cfg (now - pkt.TimeStamp) = true := by
        simp only [timedOut, ht, decide_eq_true_eq]
        exact hgt
      simp [handlePkt, transitProbes.remove, hts, hw, htrue]
    · intro hle
      have hfalse : timedOut cfg (now - pkt.TimeStamp) = false := by
        simp only [timedOut, ht, decide_eq_false_iff_not]
        omega
      simp [handlePkt, transitProbes.remove, hts, hw, hfalse]
  · intro hnone
    simp [handlePkt, transitProbes.remove, hnone]

/-- C4, witness: timeout 500 ms, probe sent at t = 0; a reply at 600 ms is
late, a reply at 400 ms is received with rtt 400 ms. -/
theorem C4_receiver_classification_witness :
    handlePkt ⟨500, 1000⟩ ⟨[(1, 0)], 0, 0, []⟩ 600000000 ⟨1, 0⟩ =
      (RecvOutcome.late, ⟨[], 0, 1, []⟩) ∧
    handlePkt ⟨500, 1000⟩ ⟨[(1, 0)], 0, 0, []⟩ 400000000 ⟨1, 0⟩ =
      (RecvOutcome.received, ⟨[], 0, 0, [(0, 400000000, 1000)]⟩) := by
  constructor
  · have h := ((C4_receiver_classification ⟨500, 1000⟩ ⟨[(1, 0)], 0, 0, []⟩ 600000000 ⟨1, 0⟩
      (by norm_num) (by norm_num) (by norm_num)).1 0 rfl).1 (by norm_num)
    simpa using h
  · have h := ((C4_receiver_classification ⟨500, 1000⟩ ⟨[(1, 0)], 0, 0, []⟩ 400000000 ⟨1, 0⟩
      (by norm_num) (by norm_num) (by norm_num)).1 0 rfl).2 (by norm_num)
    simpa using h

/-- C5, counterexample: the claim says a reply whose sequence number is not
in the registry changes no counter of the Prober, including
`probesReceived`.  On the empty registry, processing a well-formed datagram
for sequence number 1 bumps `probesReceived` from 0 to 1, because the
receiver increments it for every successfully read datagram before looking
the sequence number up. -/
theorem C5_probesReceived_counterexample :
    ((receiverStep ⟨500, 1000⟩ ⟨[], 0, 0, []⟩ 0
        (ReadEvent.datagram (marshal ⟨1, 0⟩ 0))).2).probesReceived = 1 ∧
    (⟨[], 0, 0, []⟩ : ProberState).probesReceived = 0 :=
  ⟨rfl, rfl⟩

/-- C5, amended: a decoded reply whose sequence number is not found in the
transit registry is silently ignored — the loop continues, the registry,
`latePackets` and the aggregator trace are unchanged — but `probesReceived`
is incremented, as it is for every successfully read datagram. -/
theorem C5_not_found_ignored (cfg : Cfg) (st : ProberState) (now : Int)
    (raw : List Nat) (pkt : probe)
    (hum : unmarshal raw = Except.ok pkt)
    (hnf : rLookup st.transitProbes pkt.SequenceNumber = none) :
    receiverStep cfg st now (ReadEvent.datagram raw) =
      (LoopAction.nextIter,
        { st with probesReceived := (st.probesReceived + 1) % 2 ^ 64 }) := by
  simp [receiverStep, hum, handlePkt, transitProbes.remove, hnf]

/-- C5, witness: the amended not-found law on the empty registry and the
datagram for sequence number 1. -/
theorem C5_not_found_ignored_witness :
    receiverStep ⟨500, 1000⟩ ⟨[], 0, 0, []⟩ 0
        (ReadEvent.datagram (marshal ⟨1, 0⟩ 0)) =
      (LoopAction.nextIter, ⟨[], 1, 0, []⟩) := by
  have h := C5_not_found_ignored ⟨500, 1000⟩ ⟨[], 0, 0, []⟩ 0
    (marshal ⟨1, 0⟩ 0) ⟨1, 0⟩ rfl rfl
  simpa using h

/-- C6: one receiver-loop iteration exits in exactly three cases — stop
signal observed at the top, socket read error, or unmarshal failure — and
in every other case (including not-found, late and received replies) it
continues to the next iteration. -/
theorem C6_receiver_loop_exit (cfg : Cfg) (st : ProberState) (now : Int) (ev : ReadEvent) :
    ((receiverStep cfg st now ev).1 = LoopAction.exitLoop ↔
      (ev = ReadEvent.stopSignal ∨ ev = ReadEvent.readError ∨
       ∃ raw e, ev = ReadEvent.datagram raw ∧ unmarshal raw = Except.error e)) ∧
    ((receiverStep cfg st now ev).1 = LoopAction.nextIter ↔
      ¬ (ev = ReadEvent.stopSignal ∨ ev = ReadEvent.readError ∨
       ∃ raw e, ev = ReadEvent.datagram raw ∧ unmarshal raw = Except.error e)) := by
  have hP : (receiverStep cfg st now ev).1 = LoopAction.exitLoop ↔
      (ev = ReadEvent.stopSignal ∨ ev = ReadEvent.readError ∨
       ∃ raw e, ev = ReadEvent.datagram raw ∧ unmarshal raw = Except.error e) := by
    cases ev with
    | stopSignal => simp [receiverStep]
    | readError => simp [receiverStep]
    | datagram raw =>
      cases hu : unmarshal raw with
      | error e => simp [receiverStep, hu]
      | ok pkt => simp [receiverStep, hu]
  refine ⟨hP, ?_⟩
  rw [← hP]
  cases h : (receiverStep cfg st now ev).1 <;> simp [h]

/-! ## Claims about configuration validation and address expansion -/

/-- A configuration whose single router has a valid destination range but a
malformed source range, referenced by one path. -/
def badSrcConfig : Config :=
  { Paths := [{ Name := "p1", Hops := ["r1"] }],
    Routers := [{ Name := "r1", DstRange := "10.0.0.0/24", SrcRange := "not-a-cidr" }] }

/-- C8: the claim says `Validate` rejects every configuration in which some
router's destination *or source* range is invalid CIDR, so address-pool
expansion never fails at runtime on a validated configuration.
`validateRouters` parses only `DstRange`, so `badSrcConfig` — whose source
range is not CIDR at all — passes `Validate`, and expanding that source
range (done at engine start by `PathToProberHops`) hits the `panic` branch
of `GenerateAddrs`, modelled as `none`. -/
theorem C8_validate_misses_src_range :
    Validate badSrcConfig = Except.ok () ∧
    parseCIDR "not-a-cidr" = none ∧
    GenerateAddrs "not-a-cidr" = none :=
  ⟨rfl, rfl, rfl⟩

/-! ## Wire codec round trip (spec §4.1/§6; probe.go is not under src) -/

theorem beNat_bytesBE8 (n : Nat) (h : n < 2 ^ 64) : beNat (bytesBE8 n) = n := by
  simp only [beNat, bytesBE8, List.foldl]
  omega

theorem toInt64_toUInt64 (x : Int) (h1 : -(2 ^ 63) ≤ x) (h2 : x < 2 ^ 63) :
    toInt64 (toUInt64 x) = x :=
  wrap64_eq_of_range x h1 h2

/-- C9: for every representable sequence number (uint64) and timestamp
(int64), `unmarshal (marshal p)` reproduces both fields exactly, for any
configured payload size; and every input shorter than the 16-byte header
fails with the malformed-packet error. -/
theorem C9_wire_roundtrip :
    (∀ (seq : Nat) (ts : Int) (payloadSize : Nat),
      seq < 2 ^ 64 → -(2 ^ 63) ≤ ts → ts < 2 ^ 63 →
      unmarshal (marshal ⟨seq, ts⟩ payloadSize) = Except.ok ⟨seq, ts⟩) ∧
    (∀ b : List Nat, b.length < 16 → unmarshal b = Except.error "malformed packet") := by
  constructor
  · intro seq ts payloadSize hseq hlo hhi
    have hlseq : (bytesBE8 seq).length = 8 := rfl
    have hlts : (bytesBE8 (toUInt64 ts)).length = 8 := rfl
    have hassoc : marshal ⟨seq, ts⟩ payloadSize =
        bytesBE8 seq ++ (bytesBE8 (toUInt64 ts) ++ List.replicate (payloadSize - 16) 0) := by
      simp [marshal]
    have htake : (marshal ⟨seq, ts⟩ payloadSize).take 8 = bytesBE8 seq := by
      rw [hassoc, ← hlseq, List.take_left]
    have hdrop : (marshal ⟨seq, ts⟩ payloadSize).drop 8 =
        bytesBE8 (toUInt64 ts) ++ List.replicate (payloadSize - 16) 0 := by
      rw [hassoc, ← hlseq, List.drop_left]
    have htake2 : ((marshal ⟨seq, ts⟩ payloadSize).drop 8).take 8 =
        bytesBE8 (toUInt64 ts) := by
      rw [hdrop, ← hlts, List.take_left]
    have hlen : ¬ (marshal ⟨seq, ts⟩ payloadSize).length < 16 := by
      rw [hassoc]
      simp only [List.length_append, hlseq, hlts, List.length_replicate]
      omega
    have hu : toUInt64 ts < 2 ^ 64 := by
      unfold toUInt64
      omega
    rw [unmarshal, if_neg hlen, htake, htake2, beNat_bytesBE8 seq hseq,
      beNat_bytesBE8 _ hu, toInt64_toUInt64 ts hlo hhi]
  · intro b hb
    rw [unmarshal, if_pos hb]

/-- C9, witness: the round trip evaluated at the extreme representable
values and a short buffer. -/
theorem C9_wire_roundtrip_witness :
    unmarshal (marshal ⟨18446744073709551615, -1⟩ 0) =
      Except.ok ⟨18446744073709551615, -1⟩ ∧
    unmarshal (marshal ⟨0, 9223372036854775807⟩ 120) =
      Except.ok ⟨0, 9223372036854775807⟩ ∧
    unmarshal [0, 1, 2] = Except.error "malformed packet" :=
  ⟨C9_wire_roundtrip.1 18446744073709551615 (-1) 0 (by norm_num) (by norm_num) (by norm_num),
   C9_wire_roundtrip.1 0 9223372036854775807 120 (by norm_num) (by norm_num) (by norm_num),
   C9_wire_roundtrip.2 [0, 1, 2] (by norm_num)⟩

/-! ## Address-pool expansion (GenerateAddrs) -/

theorem foldl_double (k : Nat) :
    (List.range k).foldl (fun x _ => x * 2 % 2 ^ 32) 1 = 2 ^ k % 2 ^ 32 := by
  induction k with
  | zero => norm_num
  | succ n ih =>
    rw [List.range_succ, List.foldl_append, ih]
    simp only [List.foldl_cons, List.foldl_nil]
    rw [pow_succ 2 n]
    conv_rhs => rw [Nat.mul_mod]
    norm_num

theorem maskAddrCount_eq (ones : Nat) :
    maskAddrCount ones = 2 ^ (32 - ones) % 2 ^ 32 := by
  unfold maskAddrCount
  by_cases h32 : ones = 32
  · subst h32
    norm_num
  · rw [if_neg h32, foldl_double]

/-- C10: on every parsed IPv4 CIDR range with prefix length
`0 < ones ≤ 32`, `GenerateAddrs` returns the list of `2 ^ (32 - ones)`
addresses whose i-th element is the network base address plus i (one
address when `ones = 32`); but on a /0 range the uint32 address count
computed by `maskAddrCount` wraps to 0, and `GenerateAddrs` returns the
empty list instead of all addresses of the range. -/
theorem C10_generate_addrs (s : String) (ip ones : Nat)
    (hp : parseCIDR s = some (ip, ones)) :
    (0 < ones → ones ≤ 32 →
      GenerateAddrs s =
        some ((List.range (2 ^ (32 - ones))).map (fun i => getCIDRBase ip ones + i))) ∧
    (ones = 0 → GenerateAddrs s = some []) := by
  constructor
  · intro h0 h32
    have ha32 : 32 - ones < 32 := by omega
    have hc : maskAddrCount ones = 2 ^ (32 - ones) := by
      rw [maskAddrCount_eq]
      apply Nat.mod_eq_of_lt
      exact Nat.pow_lt_pow_right one_lt_two ha32
    have hpow : 2 ^ ones * 2 ^ (32 - ones) = 2 ^ 32 := by
      rw [← pow_add]
      congr 1
      omega
    simp only [GenerateAddrs, hp, hc]
    congr 1
    apply List.map_congr_left
    intro i hi
    have hi' : i < 2 ^ (32 - ones) := List.mem_range.mp hi
    show (ip % 2 ^ 32 / 2 ^ (32 - ones) * 2 ^ (32 - ones) + i % 2 ^ (32 - ones)) % 2 ^ 32 =
      ip % 2 ^ 32 / 2 ^ (32 - ones) * 2 ^ (32 - ones) + i
    have hm : ip % 2 ^ 32 < 2 ^ 32 := Nat.mod_lt _ (by norm_num)
    have hq : ip % 2 ^ 32 / 2 ^ (32 - ones) < 2 ^ ones := by
      apply Nat.div_lt_of_lt_mul
      rw [mul_comm, hpow]
      exact hm
    have hqle : ip % 2 ^ 32 / 2 ^ (32 - ones) ≤ 2 ^ ones - 1 := by omega
    have hble : ip % 2 ^ 32 / 2 ^ (32 - ones) * 2 ^ (32 - ones) ≤
        (2 ^ ones - 1) * 2 ^ (32 - ones) := Nat.mul_le_mul_right _ hqle
    have hsub : (2 ^ ones - 1) * 2 ^ (32 - ones) = 2 ^ 32 - 2 ^ (32 - ones) := by
      rw [Nat.sub_mul, one_mul, hpow]
    have hfinal : ip % 2 ^ 32 / 2 ^ (32 - ones) * 2 ^ (32 - ones) ≤
        2 ^ 32 - 2 ^ (32 - ones) := hsub ▸ hble
    have h2a : 0 < 2 ^ (32 - ones) := pow_pos (by norm_num) _
    have hBle : 2 ^ (32 - ones) ≤ 2 ^ 32 := Nat.pow_le_pow_right (by norm_num) (by omega)
    clear hq hqle hble hsub hm hpow hc ha32 hi
    generalize hB : (2 : Nat) ^ (32 - ones) = B at hi' hfinal h2a hBle ⊢
    generalize hQB : ip % 2 ^ 32 / B * B = QB at hfinal ⊢
    have him : i % B = i := Nat.mod_eq_of_lt hi'
    omega
  · intro h0
    subst h0
    have hc0 : maskAddrCount 0 = 0 := by
      rw [maskAddrCount_eq]
      norm_num
    simp [GenerateAddrs, hp, hc0]

/-- C10, witness: `10.0.0.0/30` expands to the four addresses
`10.0.0.0 + i`, and `0.0.0.0/0` expands to the empty list. -/
theorem C10_generate_addrs_witness :
    GenerateAddrs "10.0.0.0/30" =
      some ((List.range (2 ^ (32 - 30))).map (fun i => getCIDRBase 167772160 30 + i)) ∧
    GenerateAddrs "0.0.0.0/0" = some [] :=
  ⟨(C10_generate_addrs "10.0.0.0/30" 167772160 30 rfl).1 (by norm_num) (by norm_num),
   (C10_generate_addrs "0.0.0.0/0" 0 0 rfl).2 rfl⟩

end Matroschka
